import Mathlib

/-!
Verification development for the field-extraction engine of
`src/post_processors/post_processor.py` (function `parse_page3_blocks_resilient`
with helpers `_clean`, `_is_placeholder`, `_after_colon`, `_calendar_ended`,
`_parse_table_blob`).

The embedding works over `List Char`; each Python regular expression used by the
source is translated into a dedicated scanning function with the leftmost-match
and greedy-with-backtracking semantics of the `re` module, specialised to the
fixed pattern it embeds.  Python dicts become insertion-ordered association
lists (`setK` writes in place, appending new keys at the end, exactly like dict
assignment).  The block loop becomes a fold over an explicit state record.
Notes on fidelity: character classes `\s`, `\d`, `\w` are modelled at their
ASCII meaning (the inputs this engine targets are OCR text of an English form);
`str.lower`/`re.I` are modelled as ASCII case folding.
-/

abbrev Str := List Char

/-- Python `\s` (ASCII part): the whitespace set used by `str.strip` as well. -/
def pyIsSpace (c : Char) : Bool :=
  c = ' ' || c = '\t' || c = '\n' || c = '\r' || c = '\x0b' || c = '\x0c'

/-- ASCII case folding, modelling `str.lower` / `re.I` on ASCII letters. -/
def asciiLower (c : Char) : Char :=
  if 'A' ≤ c && c ≤ 'Z' then Char.ofNat (c.toNat + 32) else c

def lowerS (s : String) : String := String.mk (s.data.map asciiLower)

/-- `str.strip()`: remove leading and trailing whitespace. -/
def pyStrip (s : String) : String :=
  String.mk (((s.data.dropWhile pyIsSpace).reverse.dropWhile pyIsSpace).reverse)

/-- Match a literal pattern case-sensitively at the head; return the rest. -/
def matchCS : Str → Str → Option Str
  | [], r => some r
  | _ :: _, [] => none
  | p :: ps, c :: cs => if p = c then matchCS ps cs else none

/-- Match a literal pattern up to ASCII case (re.I) at the head; return the rest. -/
def matchCI : Str → Str → Option Str
  | [], r => some r
  | _ :: _, [] => none
  | p :: ps, c :: cs => if asciiLower p = asciiLower c then matchCI ps cs else none

/-- `re.search` driver: try a position matcher at every suffix, leftmost first. -/
def scanFor (f : Str → Option α) : Str → Option α
  | [] => f []
  | c :: cs =>
    match f (c :: cs) with
    | some a => some a
    | none => scanFor f cs

def expectChar (c : Char) : Str → Option Str
  | [] => none
  | x :: xs => if x = c then some xs else none

/-- Substring test (Python `in`, case-sensitive). -/
def containsSub (hay needle : Str) : Bool :=
  (scanFor (matchCS needle) hay).isSome

/-- Case-insensitive substring test: models `needle in hay.lower()` for an
ASCII-lowercase needle. -/
def containsCI (hay needle : Str) : Bool :=
  (scanFor (matchCI needle) hay).isSome

/-- `hay.startswith needle` (case-sensitive). -/
def startsWithS (hay needle : String) : Bool :=
  (matchCS needle.data hay.data).isSome

/-- `hay.lower().startswith needle` for an ASCII-lowercase needle. -/
def lowStarts (hay : String) (needle : String) : Bool :=
  (matchCI needle.data hay.data).isSome

/-- Leftmost split (`line.split(needle, 1)`); `none` when absent. -/
def splitAtSub (hay needle : Str) : Option (Str × Str) :=
  match matchCS needle hay with
  | some rest => some ([], rest)
  | none =>
    match hay with
    | [] => none
    | c :: cs => (splitAtSub cs needle).map (fun p => (c :: p.1, p.2))

/-- Total version used by the engine (only reached when the needle is present). -/
def splitOnceS (hay needle : String) : String × String :=
  match splitAtSub hay.data needle.data with
  | some (b, a) => (String.mk b, String.mk a)
  | none => (hay, "")

/-- The `EMPTY_TOKENS` set of the source (line 4): empty, an explicit marker,
a literal backslash-u sequence, the em dash, its UTF-8-as-cp1252 mojibake, and
a bare hyphen. -/
def EMPTY_TOKENS : List String :=
  ["", "<empty>", "\\u2014", "—", "‚Äî", "-"]

/-- `_is_placeholder` on a string value. -/
def isPlaceholder (s : String) : Bool := EMPTY_TOKENS.contains (pyStrip s)

/-- `_clean` on a string value. -/
def cleanS (s : String) : String :=
  let t := pyStrip s
  if EMPTY_TOKENS.contains t then "" else t

/-- `"" if _is_placeholder(v) else v` (used by the BSA / late-reason rules). -/
def phNorm (v : String) : String := if isPlaceholder v then "" else v

/-- One colon position of `_after_colon`'s pattern `:\s*(.*)$`: after the
colon, `\s*` greedily eats the maximal whitespace run; `(.*)` cannot cross a
newline and `$` only accepts the end of the string or a single final newline.
So the position matches iff after the whitespace run every newline, if any, is
the very last character; the capture drops that final newline. -/
def afterColonAt : Str → Option Str
  | [] => none
  | c :: rest =>
    if c = ':' then
      let t := rest.dropWhile pyIsSpace
      if t.contains '\n' then
        if t.getLast? = some '\n' && !((t.dropLast).contains '\n') then
          some t.dropLast
        else none
      else some t
    else none

/-- `_after_colon`: leftmost matching colon, `_clean`ed capture, else "". -/
def afterColon (line : String) : String :=
  match scanFor afterColonAt line.data with
  | some cap => cleanS (String.mk cap)
  | none => ""

/-- First alternative (in backtracking order) for which the continuation
succeeds. -/
def firstSome (alts : List α) (k : α → Option β) : Option β :=
  match alts with
  | [] => none
  | a :: rest =>
    match k a with
    | some b => some b
    | none => firstSome rest k

/-- Greedy alternatives of `\d{1,2}`: two digits first, then one. -/
def d12 (s : Str) : List (Str × Str) :=
  match s with
  | a :: b :: r =>
    if a.isDigit then
      if b.isDigit then [([a, b], r), ([a], b :: r)] else [([a], b :: r)]
    else []
  | [a] => if a.isDigit then [([a], [])] else []
  | [] => []

/-- Greedy alternatives of `/?`: with the slash consumed first. -/
def slashAlts (s : Str) : List Str :=
  match s with
  | '/' :: r => [r, '/' :: r]
  | _ => [s]

/-- `\d{4}`: exactly four digits from the head, returning them and the rest. -/
def take4Digits (s : Str) : Option (Str × Str) :=
  match s with
  | a :: b :: c :: d :: r =>
    if a.isDigit && b.isDigit && c.isDigit && d.isDigit then some ([a, b, c, d], r)
    else none
  | _ => none

/-- The direct pattern of `_calendar_ended` at one position:
`calendar year ended\s+(\d{1,2}/\d{1,2})/?\s*[:\-]?\s*(\d{4})` (re.I).
`\s+` is deterministic (followed by a digit), `\d{1,2}` and `/?` backtrack,
`\s*[:\-]?\s*` is deterministic (disjoint classes), `\d{4}` has no boundary. -/
def calDirectAt (suf : Str) : Option (Str × Str) :=
  (matchCI "calendar year ended".data suf).bind fun r1 =>
  let ws := r1.takeWhile pyIsSpace
  if ws.isEmpty then none else
  firstSome (d12 (r1.drop ws.length)) fun p1 =>
    (expectChar '/' p1.2).bind fun r3 =>
    firstSome (d12 r3) fun p2 =>
      firstSome (slashAlts p2.2) fun r5 =>
        let r6 := r5.dropWhile pyIsSpace
        let r7 := match r6 with
          | c :: t => if c = ':' || c = '-' then t else r6
          | [] => r6
        let r8 := r7.dropWhile pyIsSpace
        (take4Digits r8).map fun y => (p1.1 ++ '/' :: p2.1, y.1)

/-- Fallback `(\d{1,2}/\d{1,2})`: leftmost M/D-shaped token. -/
def mdFirstAt (suf : Str) : Option Str :=
  firstSome (d12 suf) fun p1 =>
    (expectChar '/' p1.2).bind fun r =>
    firstSome (d12 r) fun p2 => some (p1.1 ++ '/' :: p2.1)

/-- Fallback `(\d{4})(?!.*\d)`: four digits not followed (within the same
line, since `.` does not cross newlines) by any further digit. -/
def last4At (suf : Str) : Option Str :=
  (take4Digits suf).bind fun y =>
    if (y.2.takeWhile (fun c => c ≠ '\n')).any Char.isDigit then none else some y.1

/-- `_calendar_ended` (source lines 19-24). -/
def calendarEnded (line : String) : String :=
  match scanFor calDirectAt line.data with
  | some (md, y) => String.mk md ++ "/" ++ String.mk y
  | none =>
    match scanFor mdFirstAt line.data, scanFor last4At line.data with
    | some md, some y => String.mk md ++ "/" ++ String.mk y
    | _, _ => ""

/-- Python `\w` at its ASCII meaning. -/
def isWordChar (c : Char) : Bool := c.isAlphanum || c = '_'

/-- `re.match(r"^Form\s+(\d+)\b", line, re.I)`: anchored at the start; the
digit run is maximal and must end at a word boundary. -/
def formMatch (line : String) : Option String :=
  (matchCI "form".data line.data).bind fun r1 =>
  let ws := r1.takeWhile pyIsSpace
  if ws.isEmpty then none else
  let r2 := r1.drop ws.length
  let ds := r2.takeWhile Char.isDigit
  if ds.isEmpty then none else
  match r2.drop ds.length with
  | [] => some (String.mk ds)
  | c :: _ => if isWordChar c then none else some (String.mk ds)

/-- `re.fullmatch(r"\d{4}", line)`. -/
def isFour (line : String) : Bool :=
  match line.data with
  | [a, b, c, d] => a.isDigit && b.isDigit && c.isDigit && d.isDigit
  | _ => false

/-- The checked-mark alternatives of `\[(x|X|‚òë|‚úì)\]` (source lines 128 and
164); the last two are the UTF-8-as-cp1252 mojibake of a ballot-box glyph and a
check-mark glyph. -/
def markAlts : List Str :=
  [['x'], ['X'], ['‚', 'ò', 'ë'], ['‚', 'ú', 'ì']]

/-- `re.search(r"\[(x|X|‚òë|‚úì)\]", line)` as a Boolean. -/
def hasMark (line : String) : Bool :=
  (scanFor (fun suf =>
    (expectChar '[' suf).bind fun r1 =>
    firstSome markAlts fun alt =>
      (matchCS alt r1).bind fun r2 => expectChar ']' r2) line.data).isSome

/-- One position of a labeled-cell pattern `<lit>\s*,\s*"([^"]*)"` (re.I); with
`stopDot` the capture class also excludes `.` (the DOB pattern `[^".]*`). -/
def grabCellAt (lit : Str) (stopDot : Bool) (suf : Str) : Option Str :=
  (matchCI lit suf).bind fun r1 =>
  let r2 := r1.dropWhile pyIsSpace
  (expectChar ',' r2).bind fun r3 =>
  let r4 := r3.dropWhile pyIsSpace
  (expectChar '"' r4).bind fun r5 =>
  let cap := r5.takeWhile (fun c => c ≠ '"' && (!stopDot || c ≠ '.'))
  (expectChar '"' (r5.drop cap.length)).map fun _ => cap

/-- The `grab` helper of `_parse_table_blob` for a double-quoted label:
`"<label>"\s*,\s*"([^"]*)"`, `_clean`ed, `""` on a miss. -/
def grabQ (blob : Str) (label : Str) : String :=
  match scanFor (grabCellAt ('"' :: label ++ ['"']) false) blob with
  | some cap => cleanS (String.mk cap)
  | none => ""

def apoC : Char := Char.ofNat 39

/-- The DOB pattern `"Individual's date of birth"\s*,\s*"([^".]*)"`. -/
def grabDOB (blob : Str) : String :=
  match
    scanFor
      (grabCellAt ('"' :: ("Individual".data ++ apoC :: "s date of birth\"".data)) true)
      blob with
  | some cap => cleanS (String.mk cap)
  | none => ""

/-- `"4a Type\s+([^"]+)"` (with `plus`) or `"4a Type\s*([^"]+)"` (without):
the capture region runs to the closing quote; greedy `\s*`/`\s+` backs off just
enough to leave the mandatory non-empty capture. -/
def grab4aAt (plus : Bool) (suf : Str) : Option Str :=
  (matchCI "\"4a Type".data suf).bind fun r1 =>
  let region := r1.takeWhile (fun c => c ≠ '"')
  if region.isEmpty then none else
  (expectChar '"' (r1.drop region.length)).bind fun _ =>
  let wsLen := (region.takeWhile pyIsSpace).length
  let j := min wsLen (region.length - 1)
  if plus && j = 0 then none else some (region.drop j)

def grab4a (plus : Bool) (blob : Str) : String :=
  match scanFor (grab4aAt plus) blob with
  | some cap => cleanS (String.mk cap)
  | none => ""

/-- `First name\s+([^\s\]",]+)` (re.I, unquoted token). -/
def firstNameAt (suf : Str) : Option Str :=
  (matchCI "First name".data suf).bind fun r1 =>
  let ws := r1.takeWhile pyIsSpace
  if ws.isEmpty then none else
  let cap :=
    (r1.drop ws.length).takeWhile fun c =>
      !pyIsSpace c && c ≠ ']' && c ≠ '"' && c ≠ ','
  if cap.isEmpty then none else some cap

def firstNameGrab (blob : Str) : String :=
  match scanFor firstNameAt blob with
  | some cap => cleanS (String.mk cap)
  | none => ""

/-- `"Country\s+([A-Za-z]{2,})"` (re.I). -/
def countryAt (suf : Str) : Option Str :=
  (matchCI "\"Country".data suf).bind fun r1 =>
  let ws := r1.takeWhile pyIsSpace
  if ws.isEmpty then none else
  let r2 := r1.drop ws.length
  let run := r2.takeWhile Char.isAlpha
  if run.length < 2 then none else
  (expectChar '"' (r2.drop run.length)).map fun _ => run

def countryGrab (blob : Str) : String :=
  match scanFor countryAt blob with
  | some cap => cleanS (String.mk cap)
  | none => ""

/-- Largest offset `k ≤ n` into `r2` at which `14b` matches (re.I): the greedy
`[^\[]*` of the 14a-segment pattern keeps as much as possible before `14b`. -/
def largestK (r2 : Str) : Nat → Option Nat
  | 0 => if (matchCI "14b".data r2).isSome then some 0 else none
  | k + 1 =>
    if (matchCI "14b".data (r2.drop (k + 1))).isSome then some (k + 1)
    else largestK r2 k

/-- One position of `(14a[^]]*\][^\[]*)(14b[^]]*)` (re.I): group 1 runs from
`14a` through the first `]` after it, then up to the last `14b` occurring
before the next `[`. Returns group 1 as original text. -/
def seg14aAt (suf : Str) : Option Str :=
  (matchCI "14a".data suf).bind fun r1 =>
  let reg := r1.takeWhile (fun c => c ≠ ']')
  (expectChar ']' (r1.drop reg.length)).bind fun r2 =>
  let reg2 := r2.takeWhile (fun c => c ≠ '[')
  (largestK r2 reg2.length).map fun k =>
    suf.take (3 + reg.length + 1 + k)

/-- One position of `(14a[^]]*\][\s\S]*)$` (re.I): needs a `]` after `14a`;
the capture then runs to the end of the blob. -/
def seg14aOnlyAt (suf : Str) : Option Str :=
  (matchCI "14a".data suf).bind fun r1 =>
  let reg := r1.takeWhile (fun c => c ≠ ']')
  (expectChar ']' (r1.drop reg.length)).map fun _ => suf

/-- One position of `(14b[\s\S]*)$` (re.I). -/
def seg14bAt (suf : Str) : Option Str :=
  (matchCI "14b".data suf).map fun _ => suf

/-- `\["<word>",\s*"\s*\[(?:x|X)\]\s*"` (case-sensitive, source lines 69-70). -/
def checkedAt (word : Str) (suf : Str) : Option Unit :=
  (matchCS ('[' :: '"' :: (word ++ ['"', ','])) suf).bind fun r1 =>
  let r2 := r1.dropWhile pyIsSpace
  (expectChar '"' r2).bind fun r3 =>
  let r4 := r3.dropWhile pyIsSpace
  (expectChar '[' r4).bind fun r5 =>
  (match r5 with
   | c :: t => if c = 'x' || c = 'X' then some t else none
   | [] => none).bind fun r6 =>
  (expectChar ']' r6).bind fun r7 =>
  let r8 := r7.dropWhile pyIsSpace
  (expectChar '"' r8).map fun _ => ()

def yesChecked (seg : Str) : Bool := (scanFor (checkedAt "Yes".data) seg).isSome
def noChecked (seg : Str) : Bool := (scanFor (checkedAt "No".data) seg).isSome

/-- Character class `[\[‚òë‚úìxX]` of the `yes_b` pattern (source line 80). -/
def yesBClass : Str := ['[', '‚', 'ò', 'ë', 'ú', 'ì', 'x', 'X']

/-- Character class `[☑‚òë‚úìxX]` of the `no_b` pattern (source line 81). -/
def noBClass : Str := ['☑', '‚', 'ò', 'ë', 'ú', 'ì', 'x', 'X']

/-- `Yes[^"\]]*["\]]\s*[\[‚òë‚úìxX]` (case-sensitive). -/
def yesBAt (suf : Str) : Option Unit :=
  (matchCS "Yes".data suf).bind fun r1 =>
  let reg := r1.takeWhile (fun c => c ≠ '"' && c ≠ ']')
  (match r1.drop reg.length with
   | _ :: t => some t
   | [] => none).bind fun r2 =>
  match r2.dropWhile pyIsSpace with
  | c :: _ => if yesBClass.contains c then some () else none
  | [] => none

def yesB (seg : Str) : Bool := (scanFor yesBAt seg).isSome

/-- `No[^"\]]*[☑‚òë‚úìxX]` (case-sensitive): succeeds iff some mark-class
character occurs after `No` and before the next `"` or `]` (greedy `[^"\]]*`
backs off to the last such character). -/
def noBAt (suf : Str) : Option Unit :=
  (matchCS "No".data suf).bind fun r1 =>
  let reg := r1.takeWhile (fun c => c ≠ '"' && c ≠ ']')
  if reg.any (fun c => noBClass.contains c) then some () else none

def noB (seg : Str) : Bool := (scanFor noBAt seg).isSome

/-- JSON-like values stored in the result mapping. -/
inductive V where
  | s (x : String)
  | b (x : Bool)
  | d (m : List (String × V))

/-- Python dict assignment `m[k] = v`: overwrite in place, else append. -/
def setK (m : List (String × V)) (k : String) (v : V) : List (String × V) :=
  match m with
  | [] => [(k, v)]
  | (k', v') :: t => if k' = k then (k, v) :: t else (k', v') :: setK t k v

/-- Python dict lookup `m.get(k)`. -/
def dGet (m : List (String × V)) (k : String) : Option V :=
  match m with
  | [] => none
  | (k', v') :: t => if k' = k then some v' else dGet t k

/-- Python `m.setdefault(k, v)`. -/
def setDef (m : List (String × V)) (k : String) (v : V) : List (String × V) :=
  match dGet m k with
  | some _ => m
  | none => setK m k v

def dGetStr (m : List (String × V)) (k : String) : Option String :=
  match dGet m k with
  | some (V.s x) => some x
  | _ => none

def dGetBool (m : List (String × V)) (k : String) : Option Bool :=
  match dGet m k with
  | some (V.b x) => some x
  | _ => none

def dGetDict (m : List (String × V)) (k : String) : Option (List (String × V)) :=
  match dGet m k with
  | some (V.d x) => some x
  | _ => none

/-- `_is_placeholder` applied to a dict member (`fi.get(k)`): a missing key is
`None`, hence a placeholder; `str` of a Boolean or dict is never a token. -/
def phV (v : Option V) : Bool :=
  match v with
  | none => true
  | some (V.s x) => isPlaceholder x
  | some _ => false

/-- `_parse_table_blob` (source lines 26-89).  The two writes of
`FINANCIAL_Interest_accounts` (yes then a no-override) collapse to a single
write of the final value, and the `if foreign:` truth test is an emptiness
test. -/
def parseTableBlob (blob : String) : List (String × V) :=
  let bl := blob.data
  let out : List (String × V) := []
  let out := setK out "Type_of_filer" (V.s (grabQ bl "Type of filer".data))
  let out := setK out "TIN" (V.s (grabQ bl "U.S. Taxpayer Identification Number".data))
  let out := setK out "TIN_TYPE" (V.s (grabQ bl "TIN type".data))
  let ftA := grab4a true bl
  let ftype := if ftA = "" then grab4a false bl else ftA
  let foreign : List (String × V) := []
  let foreign := if ftype = "" then foreign else setK foreign "Type" (V.s ftype)
  let fnum := grabQ bl "4b Number".data
  let foreign := if fnum = "" then foreign else setK foreign "Number" (V.s fnum)
  let fctry := grabQ bl "4c Country of Issue".data
  let foreign := if fctry = "" then foreign else setK foreign "Country_of_issue" (V.s fctry)
  let out := if foreign.isEmpty then out else setK out "Foreign_identification" (V.d foreign)
  let out := setK out "DOB" (V.s (grabDOB bl))
  let out := setK out "Last_name_or_organization" (V.s (grabQ bl "Last name or organization".data))
  let out := setK out "First_Name" (V.s (firstNameGrab bl))
  let out := setK out "Middle_Initial" (V.s (cleanS (grabQ bl "Middle initial".data)))
  let out := setK out "Suffix" (V.s (cleanS (grabQ bl "Suffix".data)))
  let out := setK out "Mailing_address" (V.s (grabQ bl "Mailing address".data))
  let out := setK out "City" (V.s (grabQ bl "City".data))
  let out := setK out "State" (V.s (grabQ bl "State".data))
  let out := setK out "zip_postal_code" (V.s (grabQ bl "Zip/postal code".data))
  let out := setK out "Country" (V.s (countryGrab bl))
  let out :=
    match (scanFor seg14aAt bl).orElse (fun _ => scanFor seg14aOnlyAt bl) with
    | some seg =>
      setK out "FINANCIAL_Interest_accounts" (V.b (yesChecked seg && !noChecked seg))
    | none => setK out "FINANCIAL_Interest_accounts" (V.b false)
  let out :=
    match scanFor seg14bAt bl with
    | some seg =>
      setK out "Sign_Auth_no_interest" (V.b (!noB seg && yesB seg))
    | none => setK out "Sign_Auth_no_interest" (V.b false)
  let out := if phV (dGet out "Middle_Initial") then setK out "Middle_Initial" (V.s "") else out
  let out := if phV (dGet out "Suffix") then setK out "Suffix" (V.s "") else out
  out

/-- The mutable loop state of `parse_page3_blocks_resilient`. -/
structure PState where
  result : List (String × V)
  expect_name : Bool
  accumulating : Bool
  table_buf : List String

def pInit : PState := ⟨[], false, false, []⟩

/-- `"\n".join(buf)`. -/
def joinNl (buf : List String) : String := String.intercalate "\n" buf

/-- `joined.count("[") - joined.count("]")` as an integer. -/
def bdepth (s : String) : Int :=
  (s.data.countP (fun c => c = '[') : Int) - (s.data.countP (fun c => c = ']') : Int)

def headerS : String := "Part I - Filer Information"

/-- The classifier applied to a non-empty `before` fragment of a glued-header
line (source lines 121-138).  Note the rule order: the label rules come before
the Form / year / name rules, and there is no `[[` rule. -/
def classFrag (s : PState) (before : String) : PState :=
  if s.expect_name then
    { s with result := setK s.result "Name" (V.s (cleanS before)), expect_name := false }
  else if lowStarts before "taxpayer identification number" then
    { s with result := setK s.result "Taxpayer Identification Number" (V.s (afterColon before)) }
  else if containsCI before.data "calendar year ended".data then
    { s with result := setK s.result "calendar_year_ended" (V.s (calendarEnded before)) }
  else if lowStarts before "amended" then
    { s with result := setK s.result "Amended" (V.b (hasMark before)) }
  else if lowStarts before "prior report bsa identifier" then
    { s with result := setK s.result "BSA_identifier" (V.s (phNorm (afterColon before))) }
  else if lowStarts before "reason if filing late" then
    { s with result := setK s.result "Reason_if_filing_late" (V.s (phNorm (afterColon before))) }
  else
    match formMatch before with
    | some ds => { s with result := setK s.result "Form" (V.s ds) }
    | none =>
      if isFour before then { s with result := setK s.result "year" (V.s before) }
      else if lowerS before = "name" then { s with expect_name := true }
      else s

/-- The normal-line classifier (source lines 152-173); `line` is the stripped
content, `raw` the unstripped content used by the `[[` rule. -/
def classLine (s : PState) (line raw : String) : PState :=
  if s.expect_name then
    { s with result := setK s.result "Name" (V.s (cleanS line)), expect_name := false }
  else
    match formMatch line with
    | some ds => { s with result := setK s.result "Form" (V.s ds) }
    | none =>
      if isFour line then { s with result := setK s.result "year" (V.s line) }
      else if lowerS line = "name" then { s with expect_name := true }
      else if lowStarts line "taxpayer identification number" then
        { s with result := setK s.result "Taxpayer Identification Number" (V.s (afterColon line)) }
      else if containsCI line.data "calendar year ended".data then
        { s with result := setK s.result "calendar_year_ended" (V.s (calendarEnded line)) }
      else if lowStarts line "amended" then
        { s with result := setK s.result "Amended" (V.b (hasMark line)) }
      else if lowStarts line "prior report bsa identifier" then
        { s with result := setK s.result "BSA_identifier" (V.s (phNorm (afterColon line))) }
      else if lowStarts line "reason if filing late" then
        { s with result := setK s.result "Reason_if_filing_late" (V.s (phNorm (afterColon line))) }
      else if startsWithS line "[[" then
        if bdepth raw ≤ 0 then
          { s with result := setK s.result "Filer_Information" (V.d (parseTableBlob raw)),
                   accumulating := false, table_buf := [raw] }
        else { s with accumulating := true, table_buf := [raw] }
      else s

/-- One iteration of the block loop (source lines 97-173).  A block is its
`content` value: `none` stands for an absent, null or non-string content and is
skipped. -/
def processBlock (s : PState) (b : Option String) : PState :=
  match b with
  | none => s
  | some content =>
    let raw := content
    let line := pyStrip raw
    if line = "" then s
    else if s.accumulating then
      let buf := s.table_buf ++ [raw]
      let joined := joinNl buf
      if bdepth joined ≤ 0 then
        { s with result := setK s.result "Filer_Information" (V.d (parseTableBlob joined)),
                 accumulating := false, table_buf := buf }
      else { s with table_buf := buf }
    else if containsSub line.data headerS.data then
      let p := splitOnceS line headerS
      let before := pyStrip p.1
      let s1 := if before = "" then s else classFrag s before
      let trailing := pyStrip p.2
      if startsWithS trailing "[[" then
        if bdepth trailing ≤ 0 then
          { s1 with result := setK s1.result "Filer_Information" (V.d (parseTableBlob trailing)),
                    accumulating := false, table_buf := [trailing] }
        else { s1 with accumulating := true, table_buf := [trailing] }
      else { s1 with accumulating := true, table_buf := [] }
    else classLine s line raw

/-- The epilogue (source lines 175-185): the three `setdefault`s and the
in-place placeholder normalization of the nested record.  It reads nothing of
the loop state but the result mapping — in particular a still-unbalanced
`table_buf` is simply dropped. -/
def finalizeRes (res : List (String × V)) : List (String × V) :=
  let r := setDef res "Amended" (V.b false)
  let r := setDef r "BSA_identifier" (V.s "")
  let r := setDef r "Reason_if_filing_late" (V.s "")
  match dGet r "Filer_Information" with
  | some (V.d fi) =>
    let fi := if phV (dGet fi "Middle_Initial") then setK fi "Middle_Initial" (V.s "") else fi
    let fi := if phV (dGet fi "Suffix") then setK fi "Suffix" (V.s "") else fi
    setK r "Filer_Information" (V.d fi)
  | _ => r

/-- `parse_page3_blocks_resilient` (source lines 91-185). -/
def runEngine (blocks : List (Option String)) : List (String × V) :=
  finalizeRes (blocks.foldl processBlock pInit).result

/-! ### Association-list lemmas -/

theorem dGet_setK_same (m : List (String × V)) (k : String) (v : V) :
    dGet (setK m k v) k = some v := by
  induction m with
  | nil => simp [setK, dGet]
  | cons h t ih =>
    obtain ⟨k', v'⟩ := h
    by_cases hk : k' = k <;> simp [setK, dGet, hk, ih]

theorem dGet_setK_ne (m : List (String × V)) (k k2 : String) (v : V) (h : k ≠ k2) :
    dGet (setK m k v) k2 = dGet m k2 := by
  induction m with
  | nil => simp [setK, dGet, h]
  | cons hd t ih =>
    obtain ⟨k', v'⟩ := hd
    by_cases hk : k' = k
    · subst hk
      simp [setK, dGet, h]
    · simp [setK, dGet, hk, ih]

theorem dGet_setDef_ne (m : List (String × V)) (k k2 : String) (v : V) (h : k ≠ k2) :
    dGet (setDef m k v) k2 = dGet m k2 := by
  unfold setDef
  cases dGet m k with
  | none => simpa using dGet_setK_ne m k k2 v h
  | some w => rfl

theorem dGet_setDef_none (m : List (String × V)) (k : String) (v : V)
    (h : dGet m k = none) : dGet (setDef m k v) k = some v := by
  unfold setDef
  rw [h]
  exact dGet_setK_same m k v

theorem dGet_setDef_isSome (m : List (String × V)) (k : String) (v : V) :
    (dGet (setDef m k v) k).isSome = true := by
  unfold setDef
  cases hm : dGet m k with
  | none => simp [dGet_setK_same]
  | some w => simp [hm]

/-! ### C1: the multi-block blob property -/

def c1b1 : String := "[[\"Type of filer\",\"Individual\","
def c1b2 : String := "\"TIN\",\"123456789\","
def c1b3 : String := "\"TIN type\",\"SSN/ITIN\"]]"
def c1joined : String := c1b1 ++ "\n" ++ c1b2 ++ "\n" ++ c1b3

theorem c1fold3 : (([some c1b1, some c1b2, some c1b3].foldl processBlock pInit).result)
    = [("Filer_Information", V.d (parseTableBlob c1joined))] := rfl

theorem c1fold1 : (([some c1joined].foldl processBlock pInit).result)
    = [("Filer_Information", V.d (parseTableBlob c1joined))] := rfl

/-- C1, counterexample: on the three-block input of the claim the nested
`Filer_Information.TIN` is not `"123456789"` — the blob labels its value
`"TIN"` while the parser's TIN pattern looks for the label
`"U.S. Taxpayer Identification Number"`, so nothing is extracted. -/
theorem c1_counterexample :
    dGetStr ((dGetDict (runEngine [some c1b1, some c1b2, some c1b3])
        "Filer_Information").getD []) "TIN" ≠ some "123456789" := by
  rw [show runEngine [some c1b1, some c1b2, some c1b3]
      = finalizeRes [("Filer_Information", V.d (parseTableBlob c1joined))] by
    unfold runEngine; rw [c1fold3]]
  decide

/-- C1 (amended): for the three-block input sequence of the claim, the
engine's result equals the result of processing the single newline-joined
block, and the nested `Filer_Information` mapping has `TIN` equal to the
empty string (the claimed value `"123456789"` is not picked up because the
blob's label `"TIN"` does not match the parser's
`"U.S. Taxpayer Identification Number"` pattern). -/
theorem c1_multiblock_amended :
    runEngine [some c1b1, some c1b2, some c1b3] = runEngine [some c1joined] ∧
    dGetStr ((dGetDict (runEngine [some c1joined]) "Filer_Information").getD [])
        "TIN" = some "" := by
  constructor
  · unfold runEngine
    rw [c1fold3, c1fold1]
  · rw [show runEngine [some c1joined]
        = finalizeRes [("Filer_Information", V.d (parseTableBlob c1joined))] by
      unfold runEngine; rw [c1fold1]]
    decide

/-! ### C5: the checkbox segment property -/

def c5good : String := "14a [\"Yes\",\" [x] \"] 14b [\"No\",\" [X] \"]"
def c5cex : String := "14a][\"Yes\",\" [x] \"]14b[\"No\",\" [X] \"]"

/-- C5, counterexample: this blob has the claimed shape — a `14a` marker,
then the cell pair `["Yes"," [x] "]`, then a `14b` marker, then the cell pair
`["No"," [X] "]`, and no other Yes/No mark tokens — yet
`FINANCIAL_Interest_accounts` comes out `false`: the stray `]` right after
`14a` makes the two-group segment regex fail (no `14b` before the next `[`),
the to-end-of-blob fallback segment then contains the checked `No` pair, and
the no-override forces `false`. -/
theorem c5_counterexample :
    c5cex = "14a]" ++ "[\"Yes\",\" [x] \"]" ++ "14b" ++ "[\"No\",\" [X] \"]" ∧
    dGetBool (parseTableBlob c5cex) "FINANCIAL_Interest_accounts" = some false := by
  constructor
  · rfl
  · decide

/-- C5 (amended): for the claimed `14a ... ["Yes"," [x] "] ... 14b ...
["No"," [X] "]` shape with bracket-free filler text — here the joined blob
`14a ["Yes"," [x] "] 14b ["No"," [X] "]` — the Table Parser sets
`FINANCIAL_Interest_accounts` to `true` (from the 14a segment) and
`Sign_Auth_no_interest` to `false` (from the 14b segment). -/
theorem c5_checkbox_amended :
    dGetBool (parseTableBlob c5good) "FINANCIAL_Interest_accounts" = some true ∧
    dGetBool (parseTableBlob c5good) "Sign_Auth_no_interest" = some false := by
  constructor <;> decide

/-! ### C4: the calendar-year-ended fallback -/

/-- C4, counterexample: the line `"calendar year ended"` contains the trigger
substring, the direct pattern fails and the line has no `M/D`-shaped token,
yet the key `calendar_year_ended` IS written — with the empty string — by the
processing of that line (the claim says the key is not written). -/
theorem c4_counterexample :
    containsCI (pyStrip "calendar year ended").data "calendar year ended".data = true ∧
    scanFor calDirectAt (pyStrip "calendar year ended").data = none ∧
    scanFor mdFirstAt (pyStrip "calendar year ended").data = none ∧
    dGetStr (runEngine [some "calendar year ended"]) "calendar_year_ended" = some "" := by
  refine ⟨by decide, by decide, by decide, by decide⟩

/-- C4 (amended): for every line containing `calendar year ended`
(case-insensitively) that reaches the calendar rule (no earlier rule fires),
if the direct pattern fails and the line lacks an `M/D`-shaped token or lacks
a `(?!.*\d)`-final 4-digit token, the processing of that line stores the EMPTY
STRING under `calendar_year_ended` (the key is written, with `""`). -/
theorem c4_calendar_amended (s : PState) (line raw : String)
    (hn : s.expect_name = false)
    (hf : formMatch line = none)
    (h4 : isFour line = false)
    (hnm : lowerS line ≠ "name")
    (ht : lowStarts line "taxpayer identification number" = false)
    (hc : containsCI line.data "calendar year ended".data = true)
    (hd : scanFor calDirectAt line.data = none)
    (hmd : scanFor mdFirstAt line.data = none ∨ scanFor last4At line.data = none) :
    dGetStr (classLine s line raw).result "calendar_year_ended" = some "" := by
  have hcal : calendarEnded line = "" := by
    unfold calendarEnded
    rw [hd]
    rcases hmd with h | h
    · rw [h]
    · rw [h]
      cases scanFor mdFirstAt line.data <;> rfl
  unfold classLine
  simp only [hn, hf, h4, Bool.false_eq_true, if_false, hnm, ht, hc, if_true, ite_false,
    ite_true, if_neg hnm]
  rw [dGetStr, dGet_setK_same, hcal]

/-- C4 witness: the amended theorem applied at the concrete line
`"calendar year ended"`. -/
theorem c4_calendar_amended_witness :
    dGetStr (classLine pInit "calendar year ended" "calendar year ended").result
        "calendar_year_ended" = some "" :=
  c4_calendar_amended pInit "calendar year ended" "calendar year ended" rfl (by decide)
    (by decide) (by decide) (by decide) (by decide) (by decide) (Or.inl (by decide))

/-! ### C6: accumulation mode consumes raw block content -/

/-- A concrete accumulating state: one open-bracket block has been seen. -/
def c6s : PState := processBlock pInit (some "[[a")

/-- C6, counterexample: the engine is accumulating and the next block's
content is the string `"   "`, yet nothing is appended to the blob buffer —
the emptiness check of the loop runs BEFORE the accumulation branch, so a
whitespace-only block is skipped even in accumulation mode (the claim says
every string content, including whitespace-only, is appended verbatim). -/
theorem c6_counterexample :
    c6s.accumulating = true ∧
    processBlock c6s (some "   ") = c6s ∧
    c6s.table_buf ≠ c6s.table_buf ++ ["   "] := by
  refine ⟨rfl, rfl, by decide⟩

/-- C6 (amended): while accumulating, every block whose content is a string
that does not strip to empty has its raw content appended verbatim to the
buffer (completing the blob when the joined bracket depth reaches `≤ 0`), and
no line-classifier rule touches the state; blocks whose content strips to
empty are skipped entirely — they are not appended. -/
theorem c6_accumulate_amended (s : PState) (c : String)
    (ha : s.accumulating = true) :
    (pyStrip c ≠ "" →
      processBlock s (some c) =
        (let buf := s.table_buf ++ [c]
         let joined := joinNl buf
         if bdepth joined ≤ 0 then
           { s with result := setK s.result "Filer_Information" (V.d (parseTableBlob joined)),
                    accumulating := false, table_buf := buf }
         else { s with table_buf := buf })) ∧
    (pyStrip c = "" → processBlock s (some c) = s) := by
  constructor <;> intro h
  · unfold processBlock
    simp only [if_neg h, ha, if_true, ite_true]
  · unfold processBlock
    simp only [h, if_pos rfl, ite_true, if_true]

/-- C6 witness: the amended theorem at the concrete accumulating state and
the content `" ]"` (whose raw, unstripped form lands in the buffer). -/
theorem c6_accumulate_amended_witness :
    pyStrip " ]" ≠ "" ∧
    processBlock c6s (some " ]") = { c6s with table_buf := c6s.table_buf ++ [" ]"] } := by
  constructor
  · decide
  · rw [(c6_accumulate_amended c6s " ]" rfl).1 (by decide)]
    rfl

/-! ### C9: empty-seed accumulation after a glued header -/

theorem joinNl_single (c : String) : joinNl [c] = c := rfl

def c9h : String := "xPart I - Filer Information y"
def c9s : PState := processBlock pInit (some c9h)

/-- C9, counterexample: after the glued-header block whose after-fragment is
`"y"`, the engine is accumulating with an empty buffer; the next block's
content `"   "` has bracket depth `0 ≤ 0`, yet it does NOT become the first
buffered line and is NOT parsed into `Filer_Information` — whitespace-only
blocks are skipped before the accumulation branch is reached. -/
theorem c9_counterexample :
    c9s.accumulating = true ∧ c9s.table_buf = [] ∧
    bdepth "   " ≤ 0 ∧
    (processBlock c9s (some "   ")).table_buf = [] ∧
    dGet (processBlock c9s (some "   ")).result "Filer_Information" = none := by
  refine ⟨rfl, rfl, by decide, rfl, rfl⟩

/-- C9 (amended): (i) a block containing the header whose after-fragment does
not start with `[[` enters accumulation with an EMPTY buffer — the
after-fragment is discarded (never buffered, never classified, never parsed)
and only the before-fragment (if non-empty) updates the result; (ii) the next
block whose content does not strip to empty becomes the first buffered line
and, if its own bracket depth is `≤ 0`, is immediately parsed as the table
blob and stored under `Filer_Information`. -/
theorem c9_emptyseed_amended :
    (∀ (s : PState) (c : String), pyStrip c ≠ "" → s.accumulating = false →
      containsSub (pyStrip c).data headerS.data = true →
      startsWithS (pyStrip (splitOnceS (pyStrip c) headerS).2) "[[" = false →
      processBlock s (some c) =
        { (if pyStrip (splitOnceS (pyStrip c) headerS).1 = "" then s
           else classFrag s (pyStrip (splitOnceS (pyStrip c) headerS).1)) with
          accumulating := true, table_buf := [] }) ∧
    (∀ (s : PState) (c : String), s.accumulating = true → s.table_buf = [] →
      pyStrip c ≠ "" →
      processBlock s (some c) =
        if bdepth c ≤ 0 then
          { s with result := setK s.result "Filer_Information" (V.d (parseTableBlob c)),
                   accumulating := false, table_buf := [c] }
        else { s with accumulating := true, table_buf := [c] }) := by
  constructor
  · intro s c hne hacc hhdr htr
    unfold processBlock
    simp only [if_neg hne, hacc, Bool.false_eq_true, if_false, hhdr, if_true, htr,
      ite_true, ite_false]
  · intro s c hacc hbuf hne
    unfold processBlock
    simp only [if_neg hne, hacc, if_true, ite_true, hbuf, List.nil_append, joinNl_single]

/-- C9 witness: the amended theorem at the concrete header block `c9h`
(after-fragment `"y"`, discarded) and the follow-up block `"hello"` (depth 0,
parsed immediately). -/
theorem c9_emptyseed_amended_witness :
    processBlock pInit (some c9h) = { pInit with accumulating := true, table_buf := [] } ∧
    processBlock c9s (some "hello") =
      { c9s with result := setK c9s.result "Filer_Information" (V.d (parseTableBlob "hello")),
                 accumulating := false, table_buf := ["hello"] } := by
  constructor
  · rw [c9_emptyseed_amended.1 pInit c9h (by decide) rfl (by decide) (by decide)]
    rfl
  · rw [c9_emptyseed_amended.2 c9s "hello" rfl rfl (by decide)]
    rfl

/-! ### C3: before-fragment classification vs the standalone Line Classifier -/

/-- C3, counterexample: a glued-header block whose before-fragment is `[[]]`.
The standalone Line Classifier fires the `[[`-prefix blob rule on `[[]]`
(depth `0`, so `Filer_Information` is written immediately), but the
before-fragment branch has no such rule: processing the block leaves
`Filer_Information` unset. -/
theorem c3_counterexample :
    dGet (classFrag pInit "[[]]").result "Filer_Information" = none ∧
    (dGet (classLine pInit "[[]]" "[[]]").result "Filer_Information").isSome = true ∧
    dGet (processBlock pInit (some "[[]]Part I - Filer Information")).result
        "Filer_Information" = none := by
  refine ⟨rfl, rfl, rfl⟩

/-- The eight line-rule predicates, in the standalone classifier's order. -/
def fragGuards (f : String) : List Bool :=
  [(formMatch f).isSome, isFour f, decide (lowerS f = "name"),
   lowStarts f "taxpayer identification number",
   containsCI f.data "calendar year ended".data,
   lowStarts f "amended",
   lowStarts f "prior report bsa identifier",
   lowStarts f "reason if filing late"]

def atMostOne : List Bool → Bool
  | [] => true
  | b :: t => if b then t.all (fun x => !x) else atMostOne t

/-- C3 (amended): the before-fragment branch agrees with the standalone Line
Classifier on every fragment that does not begin with `[[` (the blob-start
rule is absent from the before-fragment branch) and that satisfies at most one
of the eight line-rule predicates (the two branches check the label rules and
the Form/year/name rules in opposite orders, so a fragment matching two rules
— e.g. a Form line containing `calendar year ended` — can be classified
differently). -/
theorem c3_fragment_amended (s : PState) (f : String)
    (hb : startsWithS f "[[" = false)
    (h1 : atMostOne (fragGuards f) = true) :
    classFrag s f = classLine s f f := by
  cases hn : s.expect_name with
  | true => unfold classFrag classLine; simp [hn]
  | false =>
    rcases hF : formMatch f with _ | ds <;>
      cases h4 : isFour f <;>
      by_cases hnm : lowerS f = "name" <;>
      cases ht : lowStarts f "taxpayer identification number" <;>
      cases hc : containsCI f.data "calendar year ended".data <;>
      cases hA : lowStarts f "amended" <;>
      cases hbsa : lowStarts f "prior report bsa identifier" <;>
      cases hr : lowStarts f "reason if filing late" <;>
      simp_all [fragGuards, atMostOne, classFrag, classLine]

/-- C3 witness: the amended theorem at the fragment `"Amended [x]"`, which
satisfies exactly one rule predicate. -/
theorem c3_fragment_amended_witness :
    classFrag pInit "Amended [x]" = classLine pInit "Amended [x]" "Amended [x]" :=
  c3_fragment_amended pInit "Amended [x]" (by decide) (by decide)

/-! ### C7: an unterminated blob is dropped -/

theorem finalize_keeps (res : List (String × V)) (k : String)
    (hk : k ≠ "Filer_Information") :
    dGet (finalizeRes res) k =
      dGet (setDef (setDef (setDef res "Amended" (V.b false)) "BSA_identifier" (V.s ""))
        "Reason_if_filing_late" (V.s "")) k := by
  unfold finalizeRes
  cases hfi : dGet (setDef (setDef (setDef res "Amended" (V.b false)) "BSA_identifier"
      (V.s "")) "Reason_if_filing_late" (V.s "")) "Filer_Information" with
  | none => simp only [hfi]
  | some v =>
    cases v with
    | s x => simp only [hfi]
    | b x => simp only [hfi]
    | d fi =>
      simp only [hfi]
      exact dGet_setK_ne _ _ _ _ (fun h2 => hk h2.symm)

theorem finalize_FI_none (res : List (String × V))
    (h : dGet res "Filer_Information" = none) :
    dGet (finalizeRes res) "Filer_Information" = none := by
  have h3 : dGet (setDef (setDef (setDef res "Amended" (V.b false)) "BSA_identifier"
      (V.s "")) "Reason_if_filing_late" (V.s "")) "Filer_Information" = none := by
    rw [dGet_setDef_ne _ _ _ _ (by decide), dGet_setDef_ne _ _ _ _ (by decide),
      dGet_setDef_ne _ _ _ _ (by decide)]
    exact h
  unfold finalizeRes
  simp only [h3]

theorem finalize_has_defaults (res : List (String × V)) :
    (dGet (finalizeRes res) "Amended").isSome = true ∧
    (dGet (finalizeRes res) "BSA_identifier").isSome = true ∧
    (dGet (finalizeRes res) "Reason_if_filing_late").isSome = true := by
  refine ⟨?_, ?_, ?_⟩ <;>
    rw [finalize_keeps _ _ (by decide)]
  · rw [dGet_setDef_ne _ _ _ _ (by decide), dGet_setDef_ne _ _ _ _ (by decide)]
    exact dGet_setDef_isSome _ _ _
  · rw [dGet_setDef_ne _ _ _ _ (by decide)]
    exact dGet_setDef_isSome _ _ _
  · exact dGet_setDef_isSome _ _ _

/-- C7: if the engine is still accumulating when the block sequence ends, the
buffered content contributes nothing: the returned mapping is the epilogue of
the result mapping alone (the buffer is never read), no `Filer_Information`
appears unless one was completed earlier, and the pass still returns the
mapping with the three defaulted keys present. -/
theorem c7_incomplete_blob (blocks : List (Option String))
    (_hacc : (blocks.foldl processBlock pInit).accumulating = true) :
    runEngine blocks = finalizeRes (blocks.foldl processBlock pInit).result ∧
    (dGet (blocks.foldl processBlock pInit).result "Filer_Information" = none →
      dGet (runEngine blocks) "Filer_Information" = none) ∧
    (dGet (runEngine blocks) "Amended").isSome = true ∧
    (dGet (runEngine blocks) "BSA_identifier").isSome = true ∧
    (dGet (runEngine blocks) "Reason_if_filing_late").isSome = true := by
  refine ⟨rfl, fun h => finalize_FI_none _ h, ?_, ?_, ?_⟩
  · exact (finalize_has_defaults _).1
  · exact (finalize_has_defaults _).2.1
  · exact (finalize_has_defaults _).2.2

/-- C7 witness: a single never-balanced block `"[["`. -/
theorem c7_incomplete_blob_witness :
    ([some "[["].foldl processBlock pInit).accumulating = true ∧
    dGet (runEngine [some "[["]) "Filer_Information" = none :=
  ⟨rfl, (c7_incomplete_blob [some "[["] rfl).2.1 rfl⟩

/-! ### C8: non-string contents are skipped; the pass is total -/

/-- C8: a block whose `content` is absent, null or not a string (modelled as
`none`) is skipped with no change to the extraction state; consequently
deleting such a block anywhere in the sequence leaves the engine's result
unchanged.  The engine itself is a total function of the block list — in this
embedding no failure value exists to be raised. -/
theorem c8_nonstring_skipped :
    (∀ s : PState, processBlock s none = s) ∧
    (∀ (bs1 bs2 : List (Option String)),
      runEngine (bs1 ++ none :: bs2) = runEngine (bs1 ++ bs2)) := by
  refine ⟨fun _ => rfl, fun bs1 bs2 => ?_⟩
  unfold runEngine
  rw [List.foldl_append, List.foldl_append, List.foldl_cons]
  rfl

/-! ### C2: guaranteed keys and their defaults -/

/-- None of the three defaulted keys has been written yet. -/
def InvR (r : List (String × V)) : Prop :=
  dGet r "Amended" = none ∧ dGet r "BSA_identifier" = none ∧
  dGet r "Reason_if_filing_late" = none

/-- Whenever one of the three defaulted keys is present it has the claimed
type: `Amended` Boolean, the other two strings. -/
def TypedR (r : List (String × V)) : Prop :=
  (∀ v, dGet r "Amended" = some v → ∃ x, v = V.b x) ∧
  (∀ v, dGet r "BSA_identifier" = some v → ∃ x, v = V.s x) ∧
  (∀ v, dGet r "Reason_if_filing_late" = some v → ∃ x, v = V.s x)

/-- A line (or before-fragment) that fires none of the three override rules. -/
def noOverrideLine (x : String) : Prop :=
  lowStarts x "amended" = false ∧
  lowStarts x "prior report bsa identifier" = false ∧
  lowStarts x "reason if filing late" = false

/-- No line derived from this block (its stripped content, or the stripped
before-fragment of a glued-header line) fires an override rule. -/
def noOverrideBlock (b : Option String) : Prop :=
  ∀ c, b = some c →
    noOverrideLine (pyStrip c) ∧
    noOverrideLine (pyStrip (splitOnceS (pyStrip c) headerS).1)

theorem InvR_setK (m : List (String × V)) (k : String) (v : V)
    (h1 : k ≠ "Amended") (h2 : k ≠ "BSA_identifier")
    (h3 : k ≠ "Reason_if_filing_late") (hi : InvR m) : InvR (setK m k v) := by
  obtain ⟨i1, i2, i3⟩ := hi
  exact ⟨by rw [dGet_setK_ne _ _ _ _ h1]; exact i1,
    by rw [dGet_setK_ne _ _ _ _ h2]; exact i2,
    by rw [dGet_setK_ne _ _ _ _ h3]; exact i3⟩

set_option maxHeartbeats 2000000 in
theorem classFrag_InvR (s : PState) (f : String)
    (h : noOverrideLine f) (hi : InvR s.result) : InvR (classFrag s f).result := by
  obtain ⟨hA, hbsa, hr⟩ := h
  obtain ⟨i1, i2, i3⟩ := hi
  cases hn : s.expect_name <;>
    cases ht : lowStarts f "taxpayer identification number" <;>
    cases hc : containsCI f.data "calendar year ended".data <;>
    rcases hF : formMatch f with _ | ds <;>
    cases h4 : isFour f <;>
    by_cases hnm : lowerS f = "name" <;>
    simp_all [classFrag, InvR, dGet_setK_same, dGet_setK_ne]

set_option maxHeartbeats 2000000 in
theorem classLine_InvR (s : PState) (line raw : String)
    (h : noOverrideLine line) (hi : InvR s.result) : InvR (classLine s line raw).result := by
  obtain ⟨hA, hbsa, hr⟩ := h
  obtain ⟨i1, i2, i3⟩ := hi
  cases hn : s.expect_name <;>
    rcases hF : formMatch line with _ | ds <;>
    cases h4 : isFour line <;>
    by_cases hnm : lowerS line = "name" <;>
    cases ht : lowStarts line "taxpayer identification number" <;>
    cases hc : containsCI line.data "calendar year ended".data <;>
    cases hbr : startsWithS line "[[" <;>
    simp_all [classLine, InvR, dGet_setK_same, dGet_setK_ne]
  all_goals
    split <;> simp_all [dGet_setK_same, dGet_setK_ne]

theorem processBlock_InvR (s : PState) (b : Option String)
    (h : noOverrideBlock b) (hi : InvR s.result) : InvR (processBlock s b).result := by
  cases b with
  | none => exact hi
  | some c =>
    obtain ⟨h1, h2⟩ := h c rfl
    unfold processBlock
    by_cases hemp : pyStrip c = ""
    · simp only [if_pos hemp]; exact hi
    · simp only [if_neg hemp]
      cases hacc : s.accumulating with
      | true =>
        simp only [if_true, ite_true]
        by_cases hd : bdepth (joinNl (s.table_buf ++ [c])) ≤ 0
        · simp only [if_pos hd]
          exact InvR_setK _ _ _ (by decide) (by decide) (by decide) hi
        · simp only [if_neg hd]; exact hi
      | false =>
        simp only [Bool.false_eq_true, if_false]
        cases hsub : containsSub (pyStrip c).data headerS.data with
        | true =>
          simp only [if_true, ite_true]
          have hs1 : InvR (if pyStrip (splitOnceS (pyStrip c) headerS).1 = "" then s
              else classFrag s (pyStrip (splitOnceS (pyStrip c) headerS).1)).result := by
            by_cases hbef : pyStrip (splitOnceS (pyStrip c) headerS).1 = ""
            · simp only [if_pos hbef]; exact hi
            · simp only [if_neg hbef]; exact classFrag_InvR _ _ h2 hi
          cases htr : startsWithS (pyStrip (splitOnceS (pyStrip c) headerS).2) "[[" with
          | true =>
            simp only [if_true, ite_true]
            by_cases hd : bdepth (pyStrip (splitOnceS (pyStrip c) headerS).2) ≤ 0
            · simp only [if_pos hd]
              exact InvR_setK _ _ _ (by decide) (by decide) (by decide) hs1
            · simp only [if_neg hd]; exact hs1
          | false =>
            simp only [Bool.false_eq_true, if_false]; exact hs1
        | false =>
          simp only [Bool.false_eq_true, if_false]
          exact classLine_InvR _ _ _ h1 hi

theorem fold_InvR (blocks : List (Option String))
    (h : ∀ b ∈ blocks, noOverrideBlock b) (s : PState) (hi : InvR s.result) :
    InvR ((blocks.foldl processBlock s).result) := by
  induction blocks generalizing s with
  | nil => exact hi
  | cons b t ih =>
    exact ih (fun x hx => h x (List.mem_cons_of_mem _ hx)) _
      (processBlock_InvR _ _ (h b (List.mem_cons_self _ _)) hi)

theorem TypedR_setK_other (m : List (String × V)) (k : String) (v : V)
    (h1 : k ≠ "Amended") (h2 : k ≠ "BSA_identifier")
    (h3 : k ≠ "Reason_if_filing_late") (ht : TypedR m) : TypedR (setK m k v) := by
  obtain ⟨t1, t2, t3⟩ := ht
  refine ⟨?_, ?_, ?_⟩
  · rw [dGet_setK_ne _ _ _ _ h1]; exact t1
  · rw [dGet_setK_ne _ _ _ _ h2]; exact t2
  · rw [dGet_setK_ne _ _ _ _ h3]; exact t3

set_option maxHeartbeats 4000000 in
theorem classFrag_TypedR (s : PState) (f : String)
    (ht : TypedR s.result) : TypedR (classFrag s f).result := by
  obtain ⟨t1, t2, t3⟩ := ht
  cases hn : s.expect_name <;>
    cases htx : lowStarts f "taxpayer identification number" <;>
    cases hc : containsCI f.data "calendar year ended".data <;>
    cases hA : lowStarts f "amended" <;>
    cases hbsa : lowStarts f "prior report bsa identifier" <;>
    cases hr : lowStarts f "reason if filing late" <;>
    rcases hF : formMatch f with _ | ds <;>
    cases h4 : isFour f <;>
    by_cases hnm : lowerS f = "name" <;>
    simp_all [classFrag, TypedR, dGet_setK_same, dGet_setK_ne]

set_option maxHeartbeats 8000000 in
theorem classLine_TypedR (s : PState) (line raw : String)
    (ht : TypedR s.result) : TypedR (classLine s line raw).result := by
  obtain ⟨t1, t2, t3⟩ := ht
  cases hn : s.expect_name <;>
    rcases hF : formMatch line with _ | ds <;>
    cases h4 : isFour line <;>
    by_cases hnm : lowerS line = "name" <;>
    cases htx : lowStarts line "taxpayer identification number" <;>
    cases hc : containsCI line.data "calendar year ended".data <;>
    cases hA : lowStarts line "amended" <;>
    cases hbsa : lowStarts line "prior report bsa identifier" <;>
    cases hr : lowStarts line "reason if filing late" <;>
    cases hbr : startsWithS line "[[" <;>
    simp_all [classLine, TypedR, dGet_setK_same, dGet_setK_ne]
  all_goals
    split <;> simp_all [dGet_setK_same, dGet_setK_ne]

theorem processBlock_TypedR (s : PState) (b : Option String)
    (ht : TypedR s.result) : TypedR (processBlock s b).result := by
  cases b with
  | none => exact ht
  | some c =>
    unfold processBlock
    by_cases hemp : pyStrip c = ""
    · simp only [if_pos hemp]; exact ht
    · simp only [if_neg hemp]
      cases hacc : s.accumulating with
      | true =>
        simp only [if_true, ite_true]
        by_cases hd : bdepth (joinNl (s.table_buf ++ [c])) ≤ 0
        · simp only [if_pos hd]
          exact TypedR_setK_other _ _ _ (by decide) (by decide) (by decide) ht
        · simp only [if_neg hd]; exact ht
      | false =>
        simp only [Bool.false_eq_true, if_false]
        cases hsub : containsSub (pyStrip c).data headerS.data with
        | true =>
          simp only [if_true, ite_true]
          have hs1 : TypedR (if pyStrip (splitOnceS (pyStrip c) headerS).1 = "" then s
              else classFrag s (pyStrip (splitOnceS (pyStrip c) headerS).1)).result := by
            by_cases hbef : pyStrip (splitOnceS (pyStrip c) headerS).1 = ""
            · simp only [if_pos hbef]; exact ht
            · simp only [if_neg hbef]; exact classFrag_TypedR _ _ ht
          cases htr : startsWithS (pyStrip (splitOnceS (pyStrip c) headerS).2) "[[" with
          | true =>
            simp only [if_true, ite_true]
            by_cases hd : bdepth (pyStrip (splitOnceS (pyStrip c) headerS).2) ≤ 0
            · simp only [if_pos hd]
              exact TypedR_setK_other _ _ _ (by decide) (by decide) (by decide) hs1
            · simp only [if_neg hd]; exact hs1
          | false =>
            simp only [Bool.false_eq_true, if_false]; exact hs1
        | false =>
          simp only [Bool.false_eq_true, if_false]
          exact classLine_TypedR _ _ _ ht

theorem fold_TypedR (blocks : List (Option String)) (s : PState)
    (ht : TypedR s.result) : TypedR ((blocks.foldl processBlock s).result) := by
  induction blocks generalizing s with
  | nil => exact ht
  | cons b t ih => exact ih _ (processBlock_TypedR _ _ ht)

theorem dGet_setDef (m : List (String × V)) (k : String) (v : V) :
    dGet (setDef m k v) k = some ((dGet m k).getD v) := by
  unfold setDef
  cases h : dGet m k with
  | none => simp [dGet_setK_same]
  | some w => simp [h]

/-- After the epilogue, `Amended` holds its prior value or the default. -/
theorem finalize_amended (res : List (String × V)) :
    dGet (finalizeRes res) "Amended" = some ((dGet res "Amended").getD (V.b false)) := by
  rw [finalize_keeps _ _ (by decide), dGet_setDef_ne _ _ _ _ (by decide),
    dGet_setDef_ne _ _ _ _ (by decide), dGet_setDef]

theorem finalize_bsa (res : List (String × V)) :
    dGet (finalizeRes res) "BSA_identifier" = some ((dGet res "BSA_identifier").getD (V.s "")) := by
  rw [finalize_keeps _ _ (by decide), dGet_setDef_ne _ _ _ _ (by decide), dGet_setDef,
    dGet_setDef_ne _ _ _ _ (by decide)]

theorem finalize_reason (res : List (String × V)) :
    dGet (finalizeRes res) "Reason_if_filing_late"
      = some ((dGet res "Reason_if_filing_late").getD (V.s "")) := by
  rw [finalize_keeps _ _ (by decide), dGet_setDef, dGet_setDef_ne _ _ _ _ (by decide),
    dGet_setDef_ne _ _ _ _ (by decide)]

/-- C2: for every input block sequence, the output contains `Amended` as a
Boolean, `BSA_identifier` and `Reason_if_filing_late` as strings; and if no
line of the input (stripped content or stripped before-fragment of a glued
header) starts with the corresponding labels, they hold their defaults
`false`, `""`, `""`. -/
theorem c2_guaranteed_defaults (blocks : List (Option String)) :
    (dGetBool (runEngine blocks) "Amended").isSome = true ∧
    (dGetStr (runEngine blocks) "BSA_identifier").isSome = true ∧
    (dGetStr (runEngine blocks) "Reason_if_filing_late").isSome = true ∧
    ((∀ b ∈ blocks, noOverrideBlock b) →
      dGetBool (runEngine blocks) "Amended" = some false ∧
      dGetStr (runEngine blocks) "BSA_identifier" = some "" ∧
      dGetStr (runEngine blocks) "Reason_if_filing_late" = some "") := by
  have htyped := fold_TypedR blocks pInit
    ⟨fun v h => by simp [dGet] at h, fun v h => by simp [dGet] at h,
     fun v h => by simp [dGet] at h⟩
  obtain ⟨t1, t2, t3⟩ := htyped
  refine ⟨?_, ?_, ?_, ?_⟩
  · unfold dGetBool runEngine
    rw [finalize_amended]
    cases hv : dGet ((blocks.foldl processBlock pInit).result) "Amended" with
    | none => simp
    | some v => obtain ⟨x, hx⟩ := t1 v hv; subst hx; simp
  · unfold dGetStr runEngine
    rw [finalize_bsa]
    cases hv : dGet ((blocks.foldl processBlock pInit).result) "BSA_identifier" with
    | none => simp
    | some v => obtain ⟨x, hx⟩ := t2 v hv; subst hx; simp
  · unfold dGetStr runEngine
    rw [finalize_reason]
    cases hv : dGet ((blocks.foldl processBlock pInit).result) "Reason_if_filing_late" with
    | none => simp
    | some v => obtain ⟨x, hx⟩ := t3 v hv; subst hx; simp
  · intro h
    obtain ⟨i1, i2, i3⟩ := fold_InvR blocks h pInit ⟨rfl, rfl, rfl⟩
    refine ⟨?_, ?_, ?_⟩
    · unfold dGetBool runEngine
      rw [finalize_amended, i1]
      rfl
    · unfold dGetStr runEngine
      rw [finalize_bsa, i2]
      rfl
    · unfold dGetStr runEngine
      rw [finalize_reason, i3]
      rfl

/-- C2 witness: a block sequence whose single line fires only the Form rule:
all three defaulted keys come out with their default values. -/
theorem c2_guaranteed_defaults_witness :
    dGetBool (runEngine [some "Form 114"]) "Amended" = some false ∧
    dGetStr (runEngine [some "Form 114"]) "BSA_identifier" = some "" ∧
    dGetStr (runEngine [some "Form 114"]) "Reason_if_filing_late" = some "" :=
  (c2_guaranteed_defaults [some "Form 114"]).2.2.2 (by
    intro b hb
    rw [List.mem_singleton] at hb
    subst hb
    intro c hc
    injection hc with h
    subst h
    exact ⟨⟨by decide, by decide, by decide⟩, ⟨by decide, by decide, by decide⟩⟩)

/-! ### C10: the Filer_Information key set -/

theorem dGet_ite (c : Prop) [Decidable c] (m1 m2 : List (String × V)) (k : String) :
    dGet (if c then m1 else m2) k = if c then dGet m1 k else dGet m2 k :=
  apply_ite (fun m => dGet m k) c m1 m2

set_option maxHeartbeats 2000000 in
theorem parseTB_fields (blob : String) :
    dGetStr (parseTableBlob blob) "Type_of_filer"
        = some (grabQ blob.data "Type of filer".data) ∧
    dGetStr (parseTableBlob blob) "TIN"
        = some (grabQ blob.data "U.S. Taxpayer Identification Number".data) ∧
    dGetStr (parseTableBlob blob) "TIN_TYPE" = some (grabQ blob.data "TIN type".data) ∧
    dGetStr (parseTableBlob blob) "DOB" = some (grabDOB blob.data) ∧
    dGetStr (parseTableBlob blob) "Last_name_or_organization"
        = some (grabQ blob.data "Last name or organization".data) ∧
    dGetStr (parseTableBlob blob) "First_Name" = some (firstNameGrab blob.data) ∧
    dGetStr (parseTableBlob blob) "Middle_Initial"
        = some (phNorm (cleanS (grabQ blob.data "Middle initial".data))) ∧
    dGetStr (parseTableBlob blob) "Suffix"
        = some (phNorm (cleanS (grabQ blob.data "Suffix".data))) ∧
    dGetStr (parseTableBlob blob) "Mailing_address"
        = some (grabQ blob.data "Mailing address".data) ∧
    dGetStr (parseTableBlob blob) "City" = some (grabQ blob.data "City".data) ∧
    dGetStr (parseTableBlob blob) "State" = some (grabQ blob.data "State".data) ∧
    dGetStr (parseTableBlob blob) "zip_postal_code"
        = some (grabQ blob.data "Zip/postal code".data) ∧
    dGetStr (parseTableBlob blob) "Country" = some (countryGrab blob.data) ∧
    (dGetBool (parseTableBlob blob) "FINANCIAL_Interest_accounts").isSome = true ∧
    (dGetBool (parseTableBlob blob) "Sign_Auth_no_interest").isSome = true := by
  simp only [parseTableBlob]
  rcases hseg : (scanFor seg14aAt blob.data).orElse (fun _ => scanFor seg14aOnlyAt blob.data)
      with _ | sa <;>
    rcases hseg2 : scanFor seg14bAt blob.data with _ | sb <;>
    by_cases hmi : isPlaceholder (cleanS (grabQ blob.data "Middle initial".data)) = true <;>
    by_cases hsu : isPlaceholder (cleanS (grabQ blob.data "Suffix".data)) = true <;>
    simp_all [dGetStr, dGetBool, dGet_setK_same, dGet_setK_ne, dGet_ite, ite_self, phV, phNorm]

theorem dGet_nil (k : String) : dGet [] k = none := rfl

set_option maxHeartbeats 1000000 in
theorem parseTB_foreign (blob : String) :
    (dGet (parseTableBlob blob) "Foreign_identification").isSome = true ↔
      ((if grab4a true blob.data = "" then grab4a false blob.data
        else grab4a true blob.data) ≠ "" ∨
       grabQ blob.data "4b Number".data ≠ "" ∨
       grabQ blob.data "4c Country of Issue".data ≠ "") := by
  simp only [parseTableBlob]
  rcases hseg : (scanFor seg14aAt blob.data).orElse (fun _ => scanFor seg14aOnlyAt blob.data)
      with _ | sa <;>
    rcases hseg2 : scanFor seg14bAt blob.data with _ | sb <;>
    rw [dGet_ite, dGet_setK_ne _ "Suffix" "Foreign_identification" _ (by decide), ite_self,
      dGet_ite, dGet_setK_ne _ "Middle_Initial" "Foreign_identification" _ (by decide), ite_self,
      dGet_setK_ne _ "Sign_Auth_no_interest" "Foreign_identification" _ (by decide),
      dGet_setK_ne _ "FINANCIAL_Interest_accounts" "Foreign_identification" _ (by decide),
      dGet_setK_ne _ "Country" "Foreign_identification" _ (by decide),
      dGet_setK_ne _ "zip_postal_code" "Foreign_identification" _ (by decide),
      dGet_setK_ne _ "State" "Foreign_identification" _ (by decide),
      dGet_setK_ne _ "City" "Foreign_identification" _ (by decide),
      dGet_setK_ne _ "Mailing_address" "Foreign_identification" _ (by decide),
      dGet_setK_ne _ "Suffix" "Foreign_identification" _ (by decide),
      dGet_setK_ne _ "Middle_Initial" "Foreign_identification" _ (by decide),
      dGet_setK_ne _ "First_Name" "Foreign_identification" _ (by decide),
      dGet_setK_ne _ "Last_name_or_organization" "Foreign_identification" _ (by decide),
      dGet_setK_ne _ "DOB" "Foreign_identification" _ (by decide),
      dGet_ite, dGet_setK_same,
      dGet_setK_ne _ "TIN_TYPE" "Foreign_identification" _ (by decide),
      dGet_setK_ne _ "TIN" "Foreign_identification" _ (by decide),
      dGet_setK_ne _ "Type_of_filer" "Foreign_identification" _ (by decide),
      dGet_nil] <;>
    by_cases h1 : grab4a true blob.data = "" <;>
    by_cases h2 : grab4a false blob.data = "" <;>
    by_cases hfn : grabQ blob.data "4b Number".data = "" <;>
    by_cases hfc : grabQ blob.data "4c Country of Issue".data = "" <;>
    simp_all [setK, List.isEmpty]

/-- All fifteen always-present scalar keys of a `Filer_Information` record,
with their types (strings possibly empty, two Booleans). -/
def KeysOK (fi : List (String × V)) : Prop :=
  (dGetStr fi "Type_of_filer").isSome = true ∧ (dGetStr fi "TIN").isSome = true ∧
  (dGetStr fi "TIN_TYPE").isSome = true ∧ (dGetStr fi "DOB").isSome = true ∧
  (dGetStr fi "Last_name_or_organization").isSome = true ∧
  (dGetStr fi "First_Name").isSome = true ∧ (dGetStr fi "Middle_Initial").isSome = true ∧
  (dGetStr fi "Suffix").isSome = true ∧ (dGetStr fi "Mailing_address").isSome = true ∧
  (dGetStr fi "City").isSome = true ∧ (dGetStr fi "State").isSome = true ∧
  (dGetStr fi "zip_postal_code").isSome = true ∧ (dGetStr fi "Country").isSome = true ∧
  (dGetBool fi "FINANCIAL_Interest_accounts").isSome = true ∧
  (dGetBool fi "Sign_Auth_no_interest").isSome = true

theorem parse_KeysOK (blob : String) : KeysOK (parseTableBlob blob) := by
  obtain ⟨h1, h2, h3, h4, h5, h6, h7, h8, h9, h10, h11, h12, h13, h14, h15⟩ :=
    parseTB_fields blob
  exact ⟨by rw [h1]; rfl, by rw [h2]; rfl, by rw [h3]; rfl, by rw [h4]; rfl,
    by rw [h5]; rfl, by rw [h6]; rfl, by rw [h7]; rfl, by rw [h8]; rfl,
    by rw [h9]; rfl, by rw [h10]; rfl, by rw [h11]; rfl, by rw [h12]; rfl,
    by rw [h13]; rfl, h14, h15⟩

/-- Whatever sits under `Filer_Information` is a table-parse record with all
scalar keys present. -/
def FIInv (r : List (String × V)) : Prop :=
  ∀ v, dGet r "Filer_Information" = some v → ∃ fi, v = V.d fi ∧ KeysOK fi

theorem FIInv_setK_other (m : List (String × V)) (k : String) (v : V)
    (hk : k ≠ "Filer_Information") (hi : FIInv m) : FIInv (setK m k v) := by
  intro w hw
  rw [dGet_setK_ne _ _ _ _ hk] at hw
  exact hi w hw

theorem FIInv_setK_parse (m : List (String × V)) (b : String) (_hi : FIInv m) :
    FIInv (setK m "Filer_Information" (V.d (parseTableBlob b))) := by
  intro w hw
  rw [dGet_setK_same] at hw
  exact ⟨parseTableBlob b, (Option.some.inj hw).symm, parse_KeysOK b⟩

set_option maxHeartbeats 4000000 in
theorem classFrag_FIInv (s : PState) (f : String)
    (hi : FIInv s.result) : FIInv (classFrag s f).result := by
  cases hn : s.expect_name <;>
    cases htx : lowStarts f "taxpayer identification number" <;>
    cases hc : containsCI f.data "calendar year ended".data <;>
    cases hA : lowStarts f "amended" <;>
    cases hbsa : lowStarts f "prior report bsa identifier" <;>
    cases hr : lowStarts f "reason if filing late" <;>
    rcases hF : formMatch f with _ | ds <;>
    cases h4 : isFour f <;>
    by_cases hnm : lowerS f = "name" <;>
    simp_all [classFrag] <;>
    exact FIInv_setK_other _ _ _ (by decide) hi

set_option maxHeartbeats 8000000 in
theorem classLine_FIInv (s : PState) (line raw : String)
    (hi : FIInv s.result) : FIInv (classLine s line raw).result := by
  cases hn : s.expect_name <;>
    rcases hF : formMatch line with _ | ds <;>
    cases h4 : isFour line <;>
    by_cases hnm : lowerS line = "name" <;>
    cases htx : lowStarts line "taxpayer identification number" <;>
    cases hc : containsCI line.data "calendar year ended".data <;>
    cases hA : lowStarts line "amended" <;>
    cases hbsa : lowStarts line "prior report bsa identifier" <;>
    cases hr : lowStarts line "reason if filing late" <;>
    cases hbr : startsWithS line "[[" <;>
    simp_all [classLine] <;>
    first
      | exact FIInv_setK_other _ _ _ (by decide) hi
      | (split <;>
          first
            | exact hi
            | exact FIInv_setK_other _ _ _ (by decide) hi
            | exact FIInv_setK_parse _ _ hi)

theorem processBlock_FIInv (s : PState) (b : Option String)
    (hi : FIInv s.result) : FIInv (processBlock s b).result := by
  cases b with
  | none => exact hi
  | some c =>
    unfold processBlock
    by_cases hemp : pyStrip c = ""
    · simp only [if_pos hemp]; exact hi
    · simp only [if_neg hemp]
      cases hacc : s.accumulating with
      | true =>
        simp only [if_true, ite_true]
        by_cases hd : bdepth (joinNl (s.table_buf ++ [c])) ≤ 0
        · simp only [if_pos hd]
          exact FIInv_setK_parse _ _ hi
        · simp only [if_neg hd]; exact hi
      | false =>
        simp only [Bool.false_eq_true, if_false]
        cases hsub : containsSub (pyStrip c).data headerS.data with
        | true =>
          simp only [if_true, ite_true]
          have hs1 : FIInv (if pyStrip (splitOnceS (pyStrip c) headerS).1 = "" then s
              else classFrag s (pyStrip (splitOnceS (pyStrip c) headerS).1)).result := by
            by_cases hbef : pyStrip (splitOnceS (pyStrip c) headerS).1 = ""
            · simp only [if_pos hbef]; exact hi
            · simp only [if_neg hbef]; exact classFrag_FIInv _ _ hi
          cases htr : startsWithS (pyStrip (splitOnceS (pyStrip c) headerS).2) "[[" with
          | true =>
            simp only [if_true, ite_true]
            by_cases hd : bdepth (pyStrip (splitOnceS (pyStrip c) headerS).2) ≤ 0
            · simp only [if_pos hd]
              exact FIInv_setK_parse _ _ hs1
            · simp only [if_neg hd]; exact hs1
          | false =>
            simp only [Bool.false_eq_true, if_false]; exact hs1
        | false =>
          simp only [Bool.false_eq_true, if_false]
          exact classLine_FIInv _ _ _ hi

theorem fold_FIInv (blocks : List (Option String)) (s : PState)
    (hi : FIInv s.result) : FIInv ((blocks.foldl processBlock s).result) := by
  induction blocks generalizing s with
  | nil => exact hi
  | cons b t ih => exact ih _ (processBlock_FIInv _ _ hi)

/-- The epilogue keeps a completed `Filer_Information` record, normalizing its
`Middle_Initial` and `Suffix` in place. -/
theorem finalize_FI_some (res fi0 : List (String × V))
    (h : dGet res "Filer_Information" = some (V.d fi0)) :
    dGet (finalizeRes res) "Filer_Information" = some (V.d
      (if phV (dGet (if phV (dGet fi0 "Middle_Initial") then
          setK fi0 "Middle_Initial" (V.s "") else fi0) "Suffix") then
        setK (if phV (dGet fi0 "Middle_Initial") then
          setK fi0 "Middle_Initial" (V.s "") else fi0) "Suffix" (V.s "")
      else (if phV (dGet fi0 "Middle_Initial") then
        setK fi0 "Middle_Initial" (V.s "") else fi0))) := by
  have h3 : dGet (setDef (setDef (setDef res "Amended" (V.b false)) "BSA_identifier"
      (V.s "")) "Reason_if_filing_late" (V.s "")) "Filer_Information" = some (V.d fi0) := by
    rw [dGet_setDef_ne _ _ _ _ (by decide), dGet_setDef_ne _ _ _ _ (by decide),
      dGet_setDef_ne _ _ _ _ (by decide)]
    exact h
  unfold finalizeRes
  simp only [h3, dGet_setK_same]

theorem KeysOK_setK_MI (fi : List (String × V)) (hk : KeysOK fi) :
    KeysOK (setK fi "Middle_Initial" (V.s "")) := by
  obtain ⟨h1, h2, h3, h4, h5, h6, h7, h8, h9, h10, h11, h12, h13, h14, h15⟩ := hk
  refine ⟨?_, ?_, ?_, ?_, ?_, ?_, ?_, ?_, ?_, ?_, ?_, ?_, ?_, ?_, ?_⟩ <;>
    simp_all [dGetStr, dGetBool, dGet_setK_same, dGet_setK_ne]

theorem KeysOK_setK_Suf (fi : List (String × V)) (hk : KeysOK fi) :
    KeysOK (setK fi "Suffix" (V.s "")) := by
  obtain ⟨h1, h2, h3, h4, h5, h6, h7, h8, h9, h10, h11, h12, h13, h14, h15⟩ := hk
  refine ⟨?_, ?_, ?_, ?_, ?_, ?_, ?_, ?_, ?_, ?_, ?_, ?_, ?_, ?_, ?_⟩ <;>
    simp_all [dGetStr, dGetBool, dGet_setK_same, dGet_setK_ne]

theorem KeysOK_norm (fi0 : List (String × V)) (hk : KeysOK fi0) :
    KeysOK (if phV (dGet (if phV (dGet fi0 "Middle_Initial") then
        setK fi0 "Middle_Initial" (V.s "") else fi0) "Suffix") then
      setK (if phV (dGet fi0 "Middle_Initial") then
        setK fi0 "Middle_Initial" (V.s "") else fi0) "Suffix" (V.s "")
    else (if phV (dGet fi0 "Middle_Initial") then
      setK fi0 "Middle_Initial" (V.s "") else fi0)) := by
  by_cases c1 : phV (dGet fi0 "Middle_Initial") = true
  · simp only [c1, if_true, ite_true]
    by_cases c2 : phV (dGet (setK fi0 "Middle_Initial" (V.s "")) "Suffix") = true
    · simp only [c2, if_true, ite_true]
      exact KeysOK_setK_Suf _ (KeysOK_setK_MI _ hk)
    · simp only [c2, Bool.false_eq_true, if_false, ite_false]
      exact KeysOK_setK_MI _ hk
  · simp only [c1, Bool.false_eq_true, if_false, ite_false]
    by_cases c2 : phV (dGet fi0 "Suffix") = true
    · simp only [c2, if_true, ite_true]
      exact KeysOK_setK_Suf _ hk
    · simp only [c2, Bool.false_eq_true, if_false, ite_false]
      exact hk

theorem runEngine_FI_keys (blocks : List (Option String)) (fi : List (String × V))
    (h : dGetDict (runEngine blocks) "Filer_Information" = some fi) : KeysOK fi := by
  have hinv : FIInv ((blocks.foldl processBlock pInit).result) :=
    fold_FIInv blocks pInit (fun v hv => by simp [dGet] at hv)
  unfold dGetDict runEngine at h
  cases hres : dGet ((blocks.foldl processBlock pInit).result) "Filer_Information" with
  | none =>
    rw [finalize_FI_none _ hres] at h
    cases h
  | some v =>
    obtain ⟨fi0, rfl, hk⟩ := hinv v hres
    rw [finalize_FI_some _ _ hres] at h
    cases h
    exact KeysOK_norm fi0 hk

/-- C10: (i) for every blob, the parsed record stores each of the thirteen
string sub-fields under its key with exactly the value of its extraction
pattern (so a missed pattern yields the empty string under a present key,
and `Middle_Initial` / `Suffix` are placeholder-normalized), and both derived
Booleans are present; `Foreign_identification` is present iff at least one of
its three sub-patterns matched.  (ii) Whenever the engine's output contains
`Filer_Information`, that nested mapping contains all fifteen scalar keys
with those types. -/
theorem c10_filer_information_keys :
    (∀ blob : String,
      (dGetStr (parseTableBlob blob) "Type_of_filer"
          = some (grabQ blob.data "Type of filer".data) ∧
        dGetStr (parseTableBlob blob) "TIN"
          = some (grabQ blob.data "U.S. Taxpayer Identification Number".data) ∧
        dGetStr (parseTableBlob blob) "TIN_TYPE" = some (grabQ blob.data "TIN type".data) ∧
        dGetStr (parseTableBlob blob) "DOB" = some (grabDOB blob.data) ∧
        dGetStr (parseTableBlob blob) "Last_name_or_organization"
          = some (grabQ blob.data "Last name or organization".data) ∧
        dGetStr (parseTableBlob blob) "First_Name" = some (firstNameGrab blob.data) ∧
        dGetStr (parseTableBlob blob) "Middle_Initial"
          = some (phNorm (cleanS (grabQ blob.data "Middle initial".data))) ∧
        dGetStr (parseTableBlob blob) "Suffix"
          = some (phNorm (cleanS (grabQ blob.data "Suffix".data))) ∧
        dGetStr (parseTableBlob blob) "Mailing_address"
          = some (grabQ blob.data "Mailing address".data) ∧
        dGetStr (parseTableBlob blob) "City" = some (grabQ blob.data "City".data) ∧
        dGetStr (parseTableBlob blob) "State" = some (grabQ blob.data "State".data) ∧
        dGetStr (parseTableBlob blob) "zip_postal_code"
          = some (grabQ blob.data "Zip/postal code".data) ∧
        dGetStr (parseTableBlob blob) "Country" = some (countryGrab blob.data) ∧
        (dGetBool (parseTableBlob blob) "FINANCIAL_Interest_accounts").isSome = true ∧
        (dGetBool (parseTableBlob blob) "Sign_Auth_no_interest").isSome = true) ∧
      ((dGet (parseTableBlob blob) "Foreign_identification").isSome = true ↔
        ((if grab4a true blob.data = "" then grab4a false blob.data
          else grab4a true blob.data) ≠ "" ∨
         grabQ blob.data "4b Number".data ≠ "" ∨
         grabQ blob.data "4c Country of Issue".data ≠ ""))) ∧
    (∀ (blocks : List (Option String)) (fi : List (String × V)),
      dGetDict (runEngine blocks) "Filer_Information" = some fi → KeysOK fi) :=
  ⟨fun blob => ⟨parseTB_fields blob, parseTB_foreign blob⟩, runEngine_FI_keys⟩

/-- C10 witness: the engine run on the single block `"[[]]"` produces a
`Filer_Information` record, and the theorem yields all its keys. -/
theorem c10_filer_information_keys_witness :
    KeysOK ((dGetDict (runEngine [some "[[]]"]) "Filer_Information").getD []) :=
  c10_filer_information_keys.2 [some "[[]]"]
    ((dGetDict (runEngine [some "[[]]"]) "Filer_Information").getD []) (by rfl)
